import Mathlib

/-!
Shallow embedding of the django-spillway repository core
(`spillway/collections.py` and `spillway/carto.py`), and proofs about it.

Python values are modelled by the inductive `PyVal`; Python 2 semantics
relevant to this code (truthiness, the `in` operator on mappings, lists and
strings, keyword splatting, `dict.update`) are modelled explicitly.
Fallible Python code (statements that can raise) returns `Except PyErr _`.
Python dicts are modelled as insertion-ordered association lists, matching
the observable behaviour of the code under proof (key membership, lookup,
in-place value replacement on update); the hash-dependent iteration order of
CPython 2 dicts is modelled as insertion order, which only matters up to the
parsed-document-level equivalences proved below.
-/

namespace Spillway

/-- Python runtime errors distinguished by the code under proof. -/
inductive PyErr where
  | typeError
  | keyError
  | attributeError
deriving DecidableEq, Repr

/-- A Python value as manipulated by `spillway/collections.py`:
`None`, booleans, ints, strings, lists, plain dicts, and instances of the
two dict subclasses `Feature` and `FeatureCollection` (kept as separate
constructors because `isinstance` distinguishes them). Dict contents are
insertion-ordered association lists with string keys. -/
inductive PyVal where
  | none
  | bool (b : Bool)
  | int (n : Int)
  | str (s : String)
  | list (xs : List PyVal)
  | dict (kvs : List (String × PyVal))
  | feature (kvs : List (String × PyVal))
  | featureCollection (kvs : List (String × PyVal))

/-- First-match lookup in an association list (Python dict indexing;
keys are unique in dicts so first match is the match). -/
def lookupKV (k : String) : List (String × PyVal) → Option PyVal
  | [] => Option.none
  | (k', v) :: rest => if k' = k then some v else lookupKV k rest

/-- Python truthiness (`if x:`) for the modelled values. -/
def pyTruthy : PyVal → Bool
  | .none => false
  | .bool b => b
  | .int n => n != 0
  | .str s => !s.data.isEmpty
  | .list xs => !xs.isEmpty
  | .dict kvs => !kvs.isEmpty
  | .feature kvs => !kvs.isEmpty
  | .featureCollection kvs => !kvs.isEmpty

/-- Substring test on character lists (Python `needle in haystack` for
strings). -/
def charsContain (hay needle : List Char) : Bool :=
  needle.isPrefixOf hay ||
    match hay with
    | [] => false
    | _ :: t => charsContain t needle

/-- The Python `in` operator, `key in x`, for a string key:
`some b` is a normal result, `none` models a raised `TypeError`
(e.g. `'features' in 5`). On dicts (and dict subclasses) it is key
membership; on lists it is element equality against the string (Python
`==` between a str and a non-str is False); on strings it is the
substring test. -/
def pyContains (k : String) : PyVal → Option Bool
  | .dict kvs => some (kvs.any (fun kv => kv.1 = k))
  | .feature kvs => some (kvs.any (fun kv => kv.1 = k))
  | .featureCollection kvs => some (kvs.any (fun kv => kv.1 = k))
  | .list xs => some (xs.any (fun x => match x with | .str s => s = k | _ => false))
  | .str s => some (charsContain s.data k.data)
  | .int _ => Option.none
  | .bool _ => Option.none
  | .none => Option.none

/-- `is_featurelike` from `collections.py`:
`'geometry' in feature and 'properties' in feature`, with `AttributeError`
and `TypeError` caught and turned into `False`. -/
def is_featurelike (data : PyVal) : Bool :=
  ((pyContains "geometry" data).getD false) && ((pyContains "properties" data).getD false)

/-- `has_features` from `collections.py`:
`'features' in fcollection`, with `AttributeError`/`TypeError` caught. -/
def has_features (data : PyVal) : Bool :=
  (pyContains "features" data).getD false

/-- `isinstance(data, collections.Sequence)` (Python 2 ABC): true for lists
and strings among the modelled values, false for dicts and scalars. -/
def isSequenceABC : PyVal → Bool
  | .list _ => true
  | .str _ => true
  | _ => false

/-- Keyword splatting `f(**data)`: requires a mapping; raises `TypeError`
otherwise (`Feature(**1)` or `Feature(**'a')`). Dict subclasses splat
like dicts. -/
def splatKwargs : PyVal → Except PyErr (List (String × PyVal))
  | .dict kvs => .ok kvs
  | .feature kvs => .ok kvs
  | .featureCollection kvs => .ok kvs
  | _ => .error .typeError

/-- One step of Python `dict` update: replace the value in place if the key
is present, else append the pair. -/
def updateKV (kvs : List (String × PyVal)) (k : String) (v : PyVal) : List (String × PyVal) :=
  if kvs.any (fun kv => kv.1 = k) then
    kvs.map (fun kv => if kv.1 = k then (k, v) else kv)
  else kvs ++ [(k, v)]

/-- `self.update(arg)` where `arg` is a Python value: accepts a mapping
(merge its pairs), an empty sequence (the `()` default), or a sequence of
two-element key/value sequences; anything else raises `TypeError`. -/
def dictUpdate (kvs : List (String × PyVal)) : PyVal → Except PyErr (List (String × PyVal))
  | .dict pairs => .ok (pairs.foldl (fun acc kv => updateKV acc kv.1 kv.2) kvs)
  | .feature pairs => .ok (pairs.foldl (fun acc kv => updateKV acc kv.1 kv.2) kvs)
  | .featureCollection pairs => .ok (pairs.foldl (fun acc kv => updateKV acc kv.1 kv.2) kvs)
  | .list items =>
    items.foldlM (fun acc item =>
      match item with
      | .list [.str k, v] => .ok (updateKV acc k v)
      | _ => .error .typeError) kvs
  | _ => .error .typeError

/-- Keyword-parameter access for a constructor called as `C(**kvs)`:
the value bound to parameter `k`, or the default `None`. -/
def getKw (k : String) (kvs : List (String × PyVal)) : PyVal :=
  (lookupKV k kvs).getD .none

/-- `NamedCRS.__init__` from `collections.py`, called as `NamedCRS(crs)`
(so `iterable=()` and no extra kwargs): sets `type: name`; an int srid
yields the `urn:ogc:def:crs:EPSG::<srid>` properties, otherwise the
argument is merged via `dict.update` (which may raise). -/
def namedCRS (srid : PyVal) : Except PyErr (List (String × PyVal)) :=
  match srid with
  | .int n =>
    .ok [("type", .str "name"),
         ("properties", .dict [("name", .str ("urn:ogc:def:crs:EPSG::" ++ toString n))])]
  | _ => dictUpdate [("type", .str "name")] srid

/-- `Feature.__init__` from `collections.py`, for a call `Feature(**kvs)`:
binds the parameters `id`, `geometry`, `properties`, `crs`, `iterable`
from `kvs` (defaults `None`/`()`); sets `type`, `id`, `geometry or` empty
dict, `properties or` empty dict, optional `crs` via `NamedCRS`; then
`self.update(iterable, **kwargs)` with the remaining keys. -/
def featureInitE (kvs : List (String × PyVal)) : Except PyErr (List (String × PyVal)) := do
  let idv := getKw "id" kvs
  let geometry := getKw "geometry" kvs
  let properties := getKw "properties" kvs
  let crs := getKw "crs" kvs
  let iterable := (lookupKV "iterable" kvs).getD (.list [])
  let base : List (String × PyVal) :=
    [("type", .str "Feature"), ("id", idv),
     ("geometry", if pyTruthy geometry then geometry else .dict []),
     ("properties", if pyTruthy properties then properties else .dict [])]
  let base ←
    if pyTruthy crs then do
      let c ← namedCRS crs
      pure (base ++ [("crs", PyVal.dict c)])
    else pure base
  let base ← dictUpdate base iterable
  let kwargs := kvs.filter (fun kv =>
    kv.1 != "id" && kv.1 != "geometry" && kv.1 != "properties" &&
    kv.1 != "crs" && kv.1 != "iterable")
  pure (kwargs.foldl (fun acc kv => updateKV acc kv.1 kv.2) base)

/-- Python indexing `x[0]` as used by `FeatureCollection.__init__`
(`features[0]`): head of a list, first character of a string, `KeyError`
on a dict (string keys only, so an integer index never matches),
`TypeError` on scalars. -/
def pyIndexZero : PyVal → Except PyErr PyVal
  | .list [] => .error .typeError
  | .list (x :: _) => .ok x
  | .str s =>
    match s.data with
    | [] => .error .typeError
    | c :: _ => .ok (.str (String.mk [c]))
  | .dict _ => .error .keyError
  | .feature _ => .error .keyError
  | .featureCollection _ => .error .keyError
  | _ => .error .typeError

/-- Python iteration `for x in v` as used by the list comprehension in
`FeatureCollection.__init__`: list elements, string characters, dict keys;
`TypeError` on scalars. -/
def pyIter : PyVal → Except PyErr (List PyVal)
  | .list xs => .ok xs
  | .str s => .ok (s.data.map (fun c => .str (String.mk [c])))
  | .dict kvs => .ok (kvs.map (fun kv => .str kv.1))
  | .feature kvs => .ok (kvs.map (fun kv => .str kv.1))
  | .featureCollection kvs => .ok (kvs.map (fun kv => .str kv.1))
  | _ => .error .typeError

/-- `isinstance(f, Feature)` for a value: only `Feature` instances pass
(plain dicts and `FeatureCollection` instances do not). -/
def isFeatureInst : PyVal → Bool
  | .feature _ => true
  | _ => false

/-- `Feature(**feat)` for one element of the coerced `features` sequence:
splat the element (raises `TypeError` on non-mappings) and run the
`Feature` constructor. -/
def coerceFeatureElem (e : PyVal) : Except PyErr PyVal := do
  let ekvs ← splatKwargs e
  let f ← featureInitE ekvs
  pure (.feature f)

/-- `FeatureCollection.__init__` from `collections.py`, for a call
`FeatureCollection(**kvs)`: sets `type`; optional `crs`; if `features` is
truthy and its first element is not a `Feature` instance, each element is
coerced with `Feature(**feat)` (which can raise), else `features or []`
is stored; then `self.update(iterable, **kwargs)`. -/
def fcInitE (kvs : List (String × PyVal)) : Except PyErr (List (String × PyVal)) := do
  let features := getKw "features" kvs
  let crs := getKw "crs" kvs
  let iterable := (lookupKV "iterable" kvs).getD (.list [])
  let base : List (String × PyVal) := [("type", .str "FeatureCollection")]
  let base ←
    if pyTruthy crs then do
      let c ← namedCRS crs
      pure (base ++ [("crs", PyVal.dict c)])
    else pure base
  let featuresVal ←
    if pyTruthy features then do
      let f0 ← pyIndexZero features
      if isFeatureInst f0 then pure features
      else do
        let elems ← pyIter features
        let fs ← elems.mapM coerceFeatureElem
        pure (PyVal.list fs)
    else pure (PyVal.list [])
  let base := base ++ [("features", featuresVal)]
  let base ← dictUpdate base iterable
  let kwargs := kvs.filter (fun kv =>
    kv.1 != "features" && kv.1 != "crs" && kv.1 != "iterable")
  pure (kwargs.foldl (fun acc kv => updateKV acc kv.1 kv.2) base)

/-- `as_feature` from `collections.py`: return `Feature`/`FeatureCollection`
instances unchanged; wrap feature-like mappings as `Feature(**data)`;
wrap collection-like values as `FeatureCollection(**data)`; wrap sequences
as `FeatureCollection(features=data)`; turn an empty dict into `Feature()`;
otherwise return the input unchanged. Construction may raise (`TypeError`
from `**` on non-mappings, etc.), modelled by `Except`. -/
def as_feature (data : PyVal) : Except PyErr PyVal :=
  match data with
  | .feature _ => .ok data
  | .featureCollection _ => .ok data
  | _ =>
    if is_featurelike data then do
      let kvs ← splatKwargs data
      let f ← featureInitE kvs
      pure (.feature f)
    else if has_features data then do
      let kvs ← splatKwargs data
      let f ← fcInitE kvs
      pure (.featureCollection f)
    else if isSequenceABC data then do
      let f ← fcInitE [("features", data)]
      pure (.featureCollection f)
    else
      match data with
      | .dict [] => do
        let f ← featureInitE []
        pure (.feature f)
      | _ => .ok data

/-! ## Serialization (`Feature.__str__` and the JSON encoder) -/

/-- Characters of a string literal. -/
def toL (s : String) : List Char := s.data

/-- JSON string escaping of one character, as performed by the `json.dumps`
encoder for the characters occurring in this code's documents: quote,
backslash and the common control characters. (The encoder's `\uXXXX`
escapes for other control and non-ASCII characters are not needed by the
documents under proof, which are ASCII.) -/
def escapeChar (c : Char) : List Char :=
  if c = '"' then ['\\', '"']
  else if c = '\\' then ['\\', '\\']
  else if c = '\n' then ['\\', 'n']
  else if c = '\t' then ['\\', 't']
  else if c = '\r' then ['\\', 'r']
  else [c]

/-- JSON string escaping of a whole string. -/
def escChars (l : List Char) : List Char := (l.map escapeChar).flatten

mutual
/-- `json.dumps(v, cls=JSONEncoder)` with the default separators
`', '` and `': '`: the JSON text of a value, as a character list.
`Feature` and `FeatureCollection` are dict subclasses and are encoded as
JSON objects like plain dicts. (The `JSONEncoder` class only extends the
standard encoder for types such as dates that do not occur here.) -/
def dumps : PyVal → List Char
  | .none => toL "null"
  | .bool b => if b then toL "true" else toL "false"
  | .int n => toL (toString n)
  | .str s => '"' :: escChars s.data ++ ['"']
  | .list xs => '[' :: dumpsItems xs ++ [']']
  | .dict kvs => '{' :: dumpsEntries kvs ++ ['}']
  | .feature kvs => '{' :: dumpsEntries kvs ++ ['}']
  | .featureCollection kvs => '{' :: dumpsEntries kvs ++ ['}']
/-- The comma-separated items of a JSON array. -/
def dumpsItems : List PyVal → List Char
  | [] => []
  | [x] => dumps x
  | x :: y :: rest => dumps x ++ ',' :: ' ' :: dumpsItems (y :: rest)
/-- The comma-separated `"key": value` entries of a JSON object. -/
def dumpsEntries : List (String × PyVal) → List Char
  | [] => []
  | [(k, v)] => '"' :: escChars k.data ++ '"' :: ':' :: ' ' :: dumps v
  | (k, v) :: e :: rest =>
    ('"' :: escChars k.data ++ '"' :: ':' :: ' ' :: dumps v) ++
      ',' :: ' ' :: dumpsEntries (e :: rest)
end

/-- The JSON text of an object with the given entries (what `dumps` produces
for any of the dict-class values holding those entries). -/
def dumpObj (kvs : List (String × PyVal)) : List Char :=
  '{' :: dumpsEntries kvs ++ ['}']

/-- The single-quote character used by Python reprs. -/
def squote : Char := Char.ofNat 39

mutual
/-- Python 2 `repr` of a value, used by `%s`-formatting for elements inside
containers: strings are single-quoted, containers use `, ` separators.
(Quote-escaping and `u''` forms inside reprs are not modelled; the code
under proof only ever formats a dict, a pre-serialized string or a scalar
into its template, in which no repr of a quoted string occurs.) -/
def pyRepr : PyVal → List Char
  | .none => toL "None"
  | .bool b => if b then toL "True" else toL "False"
  | .int n => toL (toString n)
  | .str s => squote :: s.data ++ [squote]
  | .list xs => '[' :: pyReprItems xs ++ [']']
  | .dict kvs => '{' :: pyReprEntries kvs ++ ['}']
  | .feature kvs => '{' :: pyReprEntries kvs ++ ['}']
  | .featureCollection kvs => '{' :: pyReprEntries kvs ++ ['}']
/-- Comma-separated reprs of list elements. -/
def pyReprItems : List PyVal → List Char
  | [] => []
  | [x] => pyRepr x
  | x :: y :: rest => pyRepr x ++ ',' :: ' ' :: pyReprItems (y :: rest)
/-- Comma-separated `'key': value` reprs of dict entries. -/
def pyReprEntries : List (String × PyVal) → List Char
  | [] => []
  | [(k, v)] => squote :: k.data ++ squote :: ':' :: ' ' :: pyRepr v
  | (k, v) :: e :: rest =>
    (squote :: k.data ++ squote :: ':' :: ' ' :: pyRepr v) ++
      ',' :: ' ' :: pyReprEntries (e :: rest)
end

/-- Python `str(v)` / `'%s' % v`: strings are inserted verbatim, other
values via their `str` form (scalars) or repr (containers). -/
def pyFormat : PyVal → List Char
  | .str s => s.data
  | .none => toL "None"
  | .bool b => if b then toL "True" else toL "False"
  | .int n => toL (toString n)
  | .list xs => pyRepr (.list xs)
  | .dict kvs => pyRepr (.dict kvs)
  | .feature kvs => pyRepr (.feature kvs)
  | .featureCollection kvs => pyRepr (.featureCollection kvs)

/-- Python slicing `s[1:-1]` on the character list of a string. -/
def stripEnds (l : List Char) : List Char := (l.drop 1).dropLast

/-- `Feature.__str__` from `collections.py`, over the feature's dict
contents: `geom = self['geometry'] or '\x7b\x7d'` (`KeyError`, i.e. `none`,
if the key is missing); if `geom` is a dict (including dict subclasses),
JSON-encode the whole feature; otherwise encode the non-`geometry` keys,
strip the enclosing braces, and splice `geom` verbatim into the template
`'\x7b"geometry": %s, %s\x7d'`. -/
def featureStr (kvs : List (String × PyVal)) : Option (List Char) :=
  match lookupKV "geometry" kvs with
  | Option.none => Option.none
  | some g =>
    let geom := if pyTruthy g then g else .str "\x7b\x7d"
    match geom with
    | .dict _ => some (dumps (.feature kvs))
    | .feature _ => some (dumps (.feature kvs))
    | .featureCollection _ => some (dumps (.feature kvs))
    | other =>
      let rest := kvs.filter (fun kv => kv.1 != "geometry")
      let props := stripEnds (dumps (.dict rest))
      some ('{' :: toL "\"geometry\": " ++ pyFormat other ++ ',' :: ' ' :: props ++ ['}'])

/-! ## Map composition (`spillway/carto.py`)

Numeric raster values are modelled as rationals. The external mapnik
rendering backend's objects reachable from this code (colors, symbolizers,
colorizers, styles, the map) are modelled structurally; the external
geodata store's statistic-binning operation `linear(limits, k)` is a
function field of the raster dataset handle. -/

/-- A mapnik color: constructed either from RGBA components
(`mapnik.Color(0, 0, 0, 0)`) or from a color name/hex string
(`mapnik.Color(color)`). -/
inductive MColor where
  | rgba (r g b a : Int)
  | named (c : String)
deriving DecidableEq, Repr

/-- `mapnik.RasterColorizer(mapnik.COLORIZER_LINEAR, mapnik.Color(0,0,0,0))`
plus the stops added by `add_stop(value, color)` in call order. -/
structure RasterColorizer where
  mode : String := "COLORIZER_LINEAR"
  defaultColor : MColor := .rgba 0 0 0 0
  stops : List (ℚ × MColor) := []
deriving Repr

/-- `mapnik.RasterSymbolizer` carrying its colorizer. -/
structure RasterSymbolizer where
  colorizer : RasterColorizer
deriving Repr

/-- The mapnik vector symbolizer kinds chosen by `VectorLayer.symbolizer`. -/
inductive VSym where
  | point
  | line
  | polygon
deriving DecidableEq, Repr

/-- A symbolizer appended to a style rule. -/
inductive Symbolizer where
  | vec (s : VSym)
  | raster (r : RasterSymbolizer)
deriving Repr

/-- A `mapnik.Rule` with the symbolizers appended to it. -/
structure MRule where
  symbols : List Symbolizer
deriving Repr

/-- A `mapnik.Style` with the rules appended to it. -/
structure Style where
  rules : List MRule
deriving Repr

/-- `datasource.geometry_type()` results distinguished by
`VectorLayer.symbolizer`. -/
inductive GeomType where
  | point
  | lineString
  | polygon
  | other
deriving DecidableEq, Repr

/-- A vector queryset/dataset handle (external geodata store): the bits of
it this code reads — table name and native geometry type. (Such a dataset
exposes the `geojson` capability probed by `Map.layer`.) -/
structure VectorQS where
  db_table : String
  geomType : GeomType

/-- A raster dataset handle (external geodata store): its name, and its
statistic-binning operation `linear(limits, k)` returning representative
values of the raster's distribution. -/
structure RasterQS where
  name : String
  linear : Option (List ℚ) → ℕ → List ℚ

/-- One queryset handed to `build_map`; `Map.layer` discriminates vector
from raster by probing for the feature-document (`geojson`) capability. -/
inductive Dataset where
  | vector (v : VectorQS)
  | raster (r : RasterQS)

/-- `VectorLayer` state: style name, the optional `_symbolizer` (built only
when `style()` runs), the layer's `styles` name list, and the geometry type
its symbolizer derivation would query. -/
structure VLayer where
  name : String
  stylename : String
  geomType : GeomType
  symbolizer : Option VSym := Option.none
  styles : List String := []

/-- `RasterLayer` state: style name (default `'Spectral_r'`), the wrapped
raster store, band, the optional `_symbolizer` (set only by `style()`), and
the layer's `styles` name list. -/
structure RLayer where
  name : String
  stylename : String
  rstore : RasterQS
  band : ℕ := 1
  symbolizer : Option RasterSymbolizer := Option.none
  styles : List String := []

/-- A layer as held in `Map.layers`. -/
inductive BuiltLayer where
  | vec (l : VLayer)
  | ras (l : RLayer)

/-- A GEOS bounding-box polygon as consumed by `Map.zoom_bbox`: its area,
and its extent after `transform` into a given spatial reference (the
transform itself is an external GEOS operation, modelled as a function
field). -/
structure BBox where
  area : ℚ
  transformedExtent : String → ℚ × ℚ × ℚ × ℚ

/-- `Map` state: dimensions, buffer, working projection, the current view
extent, the style registry (`append_style`/`find_style`) and the ordered
layer list. -/
structure MapS where
  width : ℕ := 256
  height : ℕ := 256
  bufferSize : ℕ := 128
  srs : String := "+init=epsg:3857"
  extent : Option (ℚ × ℚ × ℚ × ℚ) := Option.none
  styles : List (String × Style) := []
  layers : List BuiltLayer := []

/-- `Map.__init__`: a 256x256 map with buffer 128 and web-mercator
projection. Loading the `map.xml` template is an external storage/backend
call whose `RuntimeError` is caught, starting from an empty map; the model
takes that empty-map path (no pre-registered styles or layers). -/
def MapS.init : MapS := {}

/-- First-match lookup in the style registry (`Map.find_style`; mapnik
raises `KeyError` when absent, modelled as `none`). -/
def findStyle (k : String) : List (String × Style) → Option Style
  | [] => Option.none
  | (k', v) :: rest => if k' = k then some v else findStyle k rest

/-- `style or default`: Python string truthiness for the style-name
defaulting in the layer constructors. -/
def orDefaultName (style : Option String) (dflt : String) : String :=
  match style with
  | some s => if s.isEmpty then dflt else s
  | Option.none => dflt

/-- `VectorLayer.symbolizer` from `carto.py`: map the datasource's native
geometry type to a symbolizer kind, with polygon as the fallback. -/
def vectorSymbolizer : GeomType → VSym
  | .point => .point
  | .lineString => .line
  | .polygon => .polygon
  | .other => .polygon

/-- `Layer.style()` for a vector layer: build a default style with one rule
holding the freshly built symbolizer, and record that symbolizer on the
layer (`self._symbolizer = self.symbolizer()`). -/
def vectorBuildStyle (l : VLayer) : VLayer × Style :=
  let sym := vectorSymbolizer l.geomType
  ({ l with symbolizer := some sym }, { rules := [{ symbols := [.vec sym] }] })

/-- `RasterLayer.symbolizer` from `carto.py`: a raster symbolizer with a
linear colorizer defaulting to the fully transparent color. -/
def rasterSymbolizer : RasterSymbolizer :=
  { colorizer := {} }

/-- `Layer.style()` for a raster layer: one default rule holding the
freshly built raster symbolizer, recorded on the layer. -/
def rasterBuildStyle (l : RLayer) : RLayer × Style :=
  let sym := rasterSymbolizer
  ({ l with symbolizer := some sym }, { rules := [{ symbols := [.raster sym] }] })

/-- `Map.layer` from `carto.py`: pick `VectorLayer` or `RasterLayer` by the
`geojson` capability probe, construct the layer (symbolizer unbuilt),
reuse the registered style of that name if present — otherwise build the
layer's default style (which sets its symbolizer) and register it — then
append the style name to the layer and the layer to the map. Returns the
updated map and the layer. -/
def MapS.layer (m : MapS) (queryset : Dataset) (stylename : Option String := Option.none) :
    MapS × BuiltLayer :=
  match queryset with
  | .vector v =>
    let l0 : VLayer := { name := v.db_table,
                         stylename := orDefaultName stylename v.db_table,
                         geomType := v.geomType }
    let (l1, styles1) :=
      match findStyle l0.stylename m.styles with
      | some _ => (l0, m.styles)
      | Option.none =>
        let (l', st) := vectorBuildStyle l0
        (l', m.styles ++ [(l0.stylename, st)])
    let l2 := { l1 with styles := l1.styles ++ [l1.stylename] }
    ({ m with styles := styles1, layers := m.layers ++ [.vec l2] }, .vec l2)
  | .raster r =>
    let l0 : RLayer := { name := r.name,
                         stylename := orDefaultName stylename "Spectral_r",
                         rstore := r }
    let (l1, styles1) :=
      match findStyle l0.stylename m.styles with
      | some _ => (l0, m.styles)
      | Option.none =>
        let (l', st) := rasterBuildStyle l0
        (l', m.styles ++ [(l0.stylename, st)])
    let l2 := { l1 with styles := l1.styles ++ [l1.stylename] }
    ({ m with styles := styles1, layers := m.layers ++ [.ras l2] }, .ras l2)

/-- `Map.zoom_bbox` from `carto.py`: `if bbox and bbox.area:` transform the
bbox into the map's projection and zoom the view to its extent; otherwise
leave the map untouched. An absent/falsy bbox is `none`. -/
def MapS.zoom_bbox (m : MapS) (bbox : Option BBox) : MapS :=
  match bbox with
  | Option.none => m
  | some b =>
    if b.area ≠ 0 then { m with extent := some (b.transformedExtent m.srs) } else m

/-- `RasterLayer.add_colorizer_stops` from `carto.py`: look up the color
ramp registered for the layer's style name (`colors.colormap.get`); if
truthy, request `k = len(rcolors)` bin values from the raster store and add
one stop per `zip(bins, rcolors)` pair to the symbolizer's colorizer.
Dereferencing the unbuilt (`None`) symbolizer on the first loop iteration
raises `AttributeError`. The colormap is the module-level ramp table,
passed as the ambient parameter `cm`. -/
def addColorizerStops (cm : String → Option (List String)) (l : RLayer)
    (limits : Option (List ℚ)) : Except PyErr RLayer :=
  match cm l.stylename with
  | Option.none => .ok l
  | some rcolors =>
    if rcolors.isEmpty then .ok l
    else
      let bins := l.rstore.linear limits rcolors.length
      let pairs := bins.zip rcolors
      if pairs.isEmpty then .ok l
      else
        match l.symbolizer with
        | Option.none => .error .attributeError
        | some sym =>
          let colorizer' : RasterColorizer :=
            { sym.colorizer with
              stops := sym.colorizer.stops ++
                pairs.map (fun vc => (vc.1, MColor.named vc.2)) }
          .ok { l with symbolizer := some { colorizer := colorizer' } }

/-- The validated form data consumed by `build_map` via
`cleaned_data.get(...)`: optional style name, bbox and limits. -/
structure TileFormData where
  style : Option String := Option.none
  bbox : Option BBox := Option.none
  limits : Option (List ℚ) := Option.none

/-- The tile form handed to `build_map` (external form-validation layer):
validity flag and the cleaned data. -/
structure TileForm where
  isValid : Bool
  cleanedData : TileFormData

/-- `build_map` from `carto.py`: take the cleaned data if the form
validates (else an empty mapping), make a map, zoom to the requested bbox,
then add one layer per queryset, calling `add_colorizer_stops` with the
requested limits on every raster layer. The stop-adding mutation of the
shared symbolizer object is modelled by replacing the just-appended layer
with its updated value. -/
def build_map (cm : String → Option (List String)) (querysets : List Dataset)
    (tileform : TileForm) : Except PyErr MapS :=
  let data := if tileform.isValid then tileform.cleanedData else {}
  let m0 := MapS.init.zoom_bbox data.bbox
  querysets.foldlM (fun m queryset =>
    let (m', layer) := m.layer queryset data.style
    match layer with
    | .ras rl => do
      let rl' ← addColorizerStops cm rl data.limits
      pure { m' with layers := m'.layers.dropLast ++ [.ras rl'] }
    | .vec _ => pure m') m0

/-- Modelled from the spec: the statistic-binning operation
`linear(limits, k)` of the external raster store (the `greenwich` raster
collaborator behind `self._rstore`, not part of this repository's sources):
"an external numeric collaborator producing `k` representative values from
the raster's distribution", "a linear binning over the supplied limits, or
over the full data range if no limits supplied". Modelled as `k` evenly
spaced values spanning the limits' range (min to max), or the raster's own
value range `vmin..vmax` when limits are absent or empty; this matches the
spec's example where `limits=[0,50,100]` with `k = 3` yields
`[0, 50, 100]`. -/
def specLinear (vmin vmax : ℚ) (limits : Option (List ℚ)) (k : ℕ) : List ℚ :=
  let bounds :=
    match limits with
    | some (x :: xs) => ((x :: xs).foldl min x, (x :: xs).foldl max x)
    | _ => (vmin, vmax)
  let lo := bounds.1
  let hi := bounds.2
  if k ≤ 1 then List.replicate k lo
  else (List.range k).map (fun i => lo + (hi - lo) * i / (k - 1))

/-- Modelled from the spec: the registered color-ramp table
`colors.colormap` of the module `spillway/colors.py`, which is not among
the sources; the spec describes "the ordered color list registered for that
style name" and names `'Spectral_r'` as "a fixed default ramp name for
raster" layers, so the modelled table registers a three-color ramp under
that default name. -/
def specColormap : String → Option (List String) :=
  fun s => if s = "Spectral_r" then some ["#9e0142", "#ffffbf", "#5e4fa2"] else Option.none

/-- A concrete raster dataset with the spec-modelled binning over the value
range 0..100. -/
def specRaster : RasterQS :=
  { name := "elevation.tif", linear := specLinear 0 100 }

/-! ## Shared lemmas -/

/-- `findStyle` skips a block without the key. -/
theorem findStyle_append_of_none {k : String} {l1 l2 : List (String × Style)}
    (h : findStyle k l1 = Option.none) :
    findStyle k (l1 ++ l2) = findStyle k l2 := by
  induction l1 with
  | nil => simp
  | cons p rest ih =>
    by_cases hp : p.1 = k
    · simp [findStyle, hp] at h
    · simpa [findStyle, hp] using ih (by simpa [findStyle, hp] using h)

/-- How many entries of the style registry carry a given name. -/
def countStyleName (s : String) (styles : List (String × Style)) : ℕ :=
  (styles.filter (fun p => p.1 = s)).length

/-- A name absent from the registry names no entry. -/
theorem findStyle_none_not_mem {s : String} {l : List (String × Style)}
    (h : findStyle s l = Option.none) : ∀ p ∈ l, p.1 ≠ s := by
  induction l with
  | nil => intro p hp; cases hp
  | cons q rest ih =>
    intro p hp
    by_cases hq : q.1 = s
    · simp [findStyle, hq] at h
    · rcases List.mem_cons.mp hp with hp' | hp'
      · simpa [hp'] using hq
      · exact ih (by simpa [findStyle, hq] using h) p hp'

/-- Appending one fresh entry makes the name registered exactly once. -/
theorem countStyleName_append_single {s : String} {l : List (String × Style)}
    (st : Style) (h : findStyle s l = Option.none) :
    countStyleName s (l ++ [(s, st)]) = 1 := by
  have hmem := findStyle_none_not_mem h
  have hfil : l.filter (fun p => p.1 = s) = [] := by
    rw [List.filter_eq_nil_iff]
    intro p hp
    simpa using hmem p hp
  simp [countStyleName, List.filter_append, hfil]

/-- A zip of nonempty lists is nonempty. -/
theorem zip_ne_nil_of_ne_nil {α β : Type} {as : List α} {bs : List β}
    (ha : as ≠ []) (hb : bs ≠ []) : as.zip bs ≠ [] := by
  cases as with
  | nil => exact absurd rfl ha
  | cons a as' =>
    cases bs with
    | nil => exact absurd rfl hb
    | cons b bs' => simp [List.zip]

/-- `zoom_bbox` touches only the view extent: registry and layers are
kept. -/
theorem zoom_bbox_frame (m : MapS) (bbox : Option BBox) :
    (m.zoom_bbox bbox).styles = m.styles ∧ (m.zoom_bbox bbox).layers = m.layers ∧
      (m.zoom_bbox bbox).srs = m.srs := by
  cases bbox with
  | none => exact ⟨rfl, rfl, rfl⟩
  | some b =>
    by_cases h : b.area ≠ 0 <;> simp [MapS.zoom_bbox, h]

/-! ## Claim theorems -/

/-- C7: for every map and every bbox argument that is absent or has zero
area, `zoom_bbox` leaves the whole map state (extent included) unchanged:
it is a no-op in those cases. -/
theorem zoom_bbox_noop (m : MapS) (bbox : Option BBox)
    (h : bbox = Option.none ∨ ∃ b, bbox = some b ∧ b.area = 0) :
    m.zoom_bbox bbox = m := by
  rcases h with h | ⟨b, hb, hba⟩
  · subst h; rfl
  · subst hb; simp [MapS.zoom_bbox, hba]

/-- Witness for C7: zooming a fresh map to a zero-area bbox changes
nothing. -/
theorem zoom_bbox_noop_witness :
    MapS.init.zoom_bbox (some { area := 0, transformedExtent := fun _ => (0, 0, 0, 0) })
      = MapS.init :=
  zoom_bbox_noop MapS.init _ (Or.inr ⟨_, rfl, rfl⟩)

/-- C5: a style name is registered at most once per map: adding a layer
that requests an already-registered style name leaves the registry
unchanged (the existing style is reused), and adding two layers with the
same fresh style name registers exactly one style entry. -/
theorem style_registered_once (m : MapS) (qs1 qs2 : Dataset) (s : String)
    (hs : ¬s.isEmpty) :
    ((findStyle s m.styles).isSome → (m.layer qs1 (some s)).1.styles = m.styles) ∧
      (findStyle s m.styles = Option.none →
        countStyleName s (((m.layer qs1 (some s)).1.layer qs2 (some s)).1.styles) = 1) := by
  have hname : orDefaultName (some s) = fun d => s := by
    funext d; simp [orDefaultName, hs]
  constructor
  · intro hsome
    obtain ⟨st, hst⟩ := Option.isSome_iff_exists.mp hsome
    cases qs1 <;> simp [MapS.layer, hname, hst]
  · intro hnone
    cases qs1 <;> cases qs2 <;>
      simp [MapS.layer, hname, hnone, findStyle_append_of_none hnone, findStyle,
        countStyleName_append_single _ hnone]

/-- Witness for C5: on a fresh map, two raster layers sharing the style
name `ramp` give exactly one registry entry for `ramp`. -/
theorem style_registered_once_witness :
    countStyleName "ramp"
      (((MapS.init.layer (.raster specRaster) (some "ramp")).1.layer
          (.raster specRaster) (some "ramp")).1.styles) = 1 :=
  (style_registered_once MapS.init (.raster specRaster) (.raster specRaster) "ramp"
    (by decide)).2 rfl

/-- C9: with no color ramp registered for the layer's style name,
`add_colorizer_stops` is a raising-free no-op: it returns the layer
unchanged (symbolizer and colorizer untouched) for every layer — in
particular for every binning implementation the layer's raster store could
carry, so the binning is never consulted. -/
theorem add_colorizer_stops_no_ramp (cm : String → Option (List String))
    (l : RLayer) (limits : Option (List ℚ))
    (h : cm l.stylename = Option.none) :
    addColorizerStops cm l limits = .ok l := by
  simp [addColorizerStops, h]

/-- A raster layer styled with a name the colormap does not register. -/
def viridisLayer : RLayer :=
  { name := "r", stylename := "viridis", rstore := specRaster,
    symbolizer := some rasterSymbolizer }

/-- Witness for C9: the modelled colormap registers nothing under
`viridis`, so the stop computation returns the layer unchanged. -/
theorem add_colorizer_stops_no_ramp_witness :
    addColorizerStops specColormap viridisLayer (some [0, 50]) = .ok viridisLayer :=
  add_colorizer_stops_no_ramp specColormap viridisLayer (some [0, 50]) (by decide)

/-- C10: when `Map.layer` finds the requested style name already
registered, it never calls the layer's `style()`, so a raster layer comes
back with its `_symbolizer` still unbuilt (`none`); `add_colorizer_stops`
on that layer then dereferences the unbuilt symbolizer (the ramp being
registered and the binning nonempty) and raises `AttributeError`. -/
theorem add_colorizer_stops_unbuilt_symbolizer (m : MapS) (r : RasterQS) (s : String)
    (cm : String → Option (List String)) (rcolors : List String)
    (limits : Option (List ℚ))
    (hs : ¬s.isEmpty) (hreg : (findStyle s m.styles).isSome)
    (hcm : cm s = some rcolors) (hrc : rcolors ≠ [])
    (hbins : r.linear limits rcolors.length ≠ []) :
    ∃ rl : RLayer, (m.layer (.raster r) (some s)).2 = .ras rl ∧
      rl.symbolizer = Option.none ∧ rl.stylename = s ∧
      addColorizerStops cm rl limits = .error .attributeError := by
  obtain ⟨st, hst⟩ := Option.isSome_iff_exists.mp hreg
  have hname : orDefaultName (some s) "Spectral_r" = s := by simp [orDefaultName, hs]
  refine ⟨{ name := r.name, stylename := s, rstore := r, styles := [s] }, ?_, rfl, rfl, ?_⟩
  · simp [MapS.layer, hname, hst]
  · have hz := zip_ne_nil_of_ne_nil hbins hrc
    simp [addColorizerStops, hcm, hrc, List.isEmpty_iff, hz]

/-- Witness for C10: a map whose registry already holds `Spectral_r`
returns an unbuilt raster layer, and attaching stops to it raises. -/
theorem add_colorizer_stops_unbuilt_symbolizer_witness :
    ∃ rl : RLayer,
      (({ styles := [("Spectral_r", { rules := [] })] } : MapS).layer
          (.raster specRaster) (some "Spectral_r")).2 = .ras rl ∧
        rl.symbolizer = Option.none ∧ rl.stylename = "Spectral_r" ∧
        addColorizerStops specColormap rl Option.none = .error .attributeError :=
  add_colorizer_stops_unbuilt_symbolizer _ specRaster "Spectral_r" specColormap
    ["#9e0142", "#ffffbf", "#5e4fa2"] Option.none (by decide) (by rfl) (by decide)
    (by decide) (by decide)

/-- The stops appended for a ramp: one per `zip(bins, rcolors)` pair. -/
def rampStops (bins : List ℚ) (rcolors : List String) : List (ℚ × MColor) :=
  (bins.zip rcolors).map (fun vc => (vc.1, MColor.named vc.2))

/-- The layer with its symbolizer's colorizer holding the given stops. -/
def withStops (l : RLayer) (sym : RasterSymbolizer) (stops' : List (ℚ × MColor)) : RLayer :=
  { l with symbolizer := some { colorizer := { sym.colorizer with stops := stops' } } }

/-- What `add_colorizer_stops` does when a ramp is registered and the
layer's symbolizer has been built: it appends `zip(bins, rcolors)` as
stops, where `bins` is the binning at `k = rcolors.length`. -/
theorem addColorizerStops_built (cm : String → Option (List String)) (l : RLayer)
    (limits : Option (List ℚ)) (rcolors : List String) (sym : RasterSymbolizer)
    (hcm : cm l.stylename = some rcolors) (hrc : rcolors ≠ [])
    (hsym : l.symbolizer = some sym)
    (hbins : l.rstore.linear limits rcolors.length ≠ []) :
    addColorizerStops cm l limits =
      .ok (withStops l sym (sym.colorizer.stops ++
        rampStops (l.rstore.linear limits rcolors.length) rcolors)) := by
  have hz := zip_ne_nil_of_ne_nil hbins hrc
  simp [addColorizerStops, hcm, hrc, List.isEmpty_iff, hz, hsym, rampStops, withStops]

/-- C1 (amended): with a ramp registered for the style name and the
layer's symbolizer built, `add_colorizer_stops` produces exactly
`len(ramp_colors)` stops — the binning being asked for exactly
`k = len(ramp_colors)` representative values — pairing the i-th bin value
with the i-th ramp color positionally (in ascending value order whenever
the binning's values ascend); the stop count equals the ramp's size
whatever the number of boundary limits supplied. -/
theorem add_colorizer_stops_ramp_pairing (cm : String → Option (List String))
    (l : RLayer) (limits : Option (List ℚ)) (rcolors : List String)
    (sym : RasterSymbolizer)
    (hcm : cm l.stylename = some rcolors) (hrc : rcolors ≠ [])
    (hsym : l.symbolizer = some sym)
    (hlen : (l.rstore.linear limits rcolors.length).length = rcolors.length) :
    addColorizerStops cm l limits =
      .ok (withStops l sym (sym.colorizer.stops ++
        rampStops (l.rstore.linear limits rcolors.length) rcolors)) ∧
      (rampStops (l.rstore.linear limits rcolors.length) rcolors).length =
        rcolors.length ∧
      (rampStops (l.rstore.linear limits rcolors.length) rcolors).map Prod.fst =
        l.rstore.linear limits rcolors.length ∧
      (rampStops (l.rstore.linear limits rcolors.length) rcolors).map Prod.snd =
        rcolors.map MColor.named ∧
      (List.Chain' (· ≤ ·) (l.rstore.linear limits rcolors.length) →
        List.Chain' (fun p q => p.1 ≤ q.1)
          (rampStops (l.rstore.linear limits rcolors.length) rcolors)) := by
  set bins := l.rstore.linear limits rcolors.length with hbinsdef
  have hbins : bins ≠ [] := by
    intro hnil
    rw [hnil] at hlen
    exact hrc (List.length_eq_zero.mp hlen.symm)
  have hfst : (rampStops bins rcolors).map Prod.fst = bins := by
    have : ((bins.zip rcolors).map (fun vc => (vc.1, MColor.named vc.2))).map Prod.fst =
        (bins.zip rcolors).map Prod.fst := by
      simp [List.map_map, Function.comp]
    rw [rampStops, this, List.map_fst_zip]
    exact le_of_eq hlen
  refine ⟨addColorizerStops_built cm l limits rcolors sym hcm hrc hsym hbins, ?_, hfst, ?_, ?_⟩
  · simp [rampStops, List.length_zip, hlen]
  · have : ((bins.zip rcolors).map (fun vc => (vc.1, MColor.named vc.2))).map Prod.snd =
        ((bins.zip rcolors).map Prod.snd).map MColor.named := by
      simp [List.map_map, Function.comp]
    rw [rampStops, this, List.map_snd_zip]
    exact le_of_eq hlen.symm
  · intro hasc
    have h2 : List.Chain' (· ≤ ·) ((rampStops bins rcolors).map Prod.fst) := by
      rw [hfst]; exact hasc
    exact (List.chain'_map Prod.fst).mp h2

/-- A built raster layer styled with the default ramp name. -/
def spectralLayer : RLayer :=
  { name := "r", stylename := "Spectral_r", rstore := specRaster,
    symbolizer := some rasterSymbolizer }

/-- Witness for C1: the amended pairing theorem applied to the built
default-styled layer, a three-color ramp and two boundary limits. -/
theorem add_colorizer_stops_ramp_pairing_witness :
    addColorizerStops specColormap spectralLayer (some [0, 50]) =
      .ok (withStops spectralLayer rasterSymbolizer
        (rasterSymbolizer.colorizer.stops ++
          rampStops (spectralLayer.rstore.linear (some [0, 50]) 3)
            ["#9e0142", "#ffffbf", "#5e4fa2"])) ∧
      (rampStops (spectralLayer.rstore.linear (some [0, 50]) 3)
        ["#9e0142", "#ffffbf", "#5e4fa2"]).length = 3 := by
  have h := add_colorizer_stops_ramp_pairing specColormap spectralLayer (some [0, 50])
    ["#9e0142", "#ffffbf", "#5e4fa2"] rasterSymbolizer (by decide) (by decide) rfl
    (by decide)
  exact ⟨h.1, h.2.1⟩

/-- Counterexample for C1's cardinality clause: with two boundary limits
and a three-color ramp, the code produces three stops (the ramp's size),
not two (the number of limits supplied): the stop count never follows the
limits' count. -/
theorem add_colorizer_stops_count_not_limits :
    (addColorizerStops specColormap spectralLayer (some [0, 50])).map
        (fun l => l.symbolizer.map (fun s => s.colorizer.stops.length)) =
      .ok (some 3) ∧
    ([0, 50] : List ℚ).length = 2 ∧ (3 : ℕ) ≠ 2 := by
  refine ⟨?_, rfl, by decide⟩
  rfl

/-- The default single-rule style built for a raster layer. -/
def defaultRasterStyle : Style := { rules := [{ symbols := [.raster rasterSymbolizer] }] }

/-- A raster layer as it leaves `Map.layer` when the style name was fresh:
symbolizer built, style name recorded. -/
def freshRLayer (r : RasterQS) (sn : String) : RLayer :=
  { name := r.name, stylename := sn, rstore := r,
    symbolizer := some rasterSymbolizer, styles := [sn] }

/-- `Map.layer` on a raster dataset whose style name is not yet
registered: the default style is built (building the symbolizer) and
registered, and the layer is appended. -/
theorem layer_raster_fresh (m : MapS) (r : RasterQS) (style : Option String)
    (h : findStyle (orDefaultName style "Spectral_r") m.styles = Option.none) :
    m.layer (.raster r) style =
      ({ m with
          styles := m.styles ++ [(orDefaultName style "Spectral_r", defaultRasterStyle)],
          layers := m.layers ++ [.ras (freshRLayer r (orDefaultName style "Spectral_r"))] },
        .ras (freshRLayer r (orDefaultName style "Spectral_r"))) := by
  simp [MapS.layer, h, rasterBuildStyle, freshRLayer, defaultRasterStyle]

/-- C6 (amended): `build_map` forwards the (possibly absent) limits to
every raster layer's stop computation unconditionally: stops are computed
and attached exactly when the style name has a registered color ramp,
whatever the limits — when limits are absent the binning simply runs over
the full data range — and are omitted exactly when no ramp is
registered. -/
theorem build_map_stops_iff_ramp (cm : String → Option (List String)) (r : RasterQS)
    (tf : TileForm) (data : TileFormData) (sn : String)
    (hdata : (if tf.isValid then tf.cleanedData else {}) = data)
    (hsn : orDefaultName data.style "Spectral_r" = sn) :
    (∀ rcolors, cm sn = some rcolors → rcolors ≠ [] →
      (r.linear data.limits rcolors.length).length = rcolors.length →
      ∃ m rl, build_map cm [.raster r] tf = .ok m ∧ m.layers = [.ras rl] ∧
        ∃ sym', rl.symbolizer = some sym' ∧
          sym'.colorizer.stops = rampStops (r.linear data.limits rcolors.length) rcolors ∧
          sym'.colorizer.stops.length = rcolors.length ∧ sym'.colorizer.stops ≠ []) ∧
    (cm sn = Option.none →
      ∃ m rl, build_map cm [.raster r] tf = .ok m ∧ m.layers = [.ras rl] ∧
        rl.symbolizer = some rasterSymbolizer) := by
  have hst : (MapS.init.zoom_bbox data.bbox).styles = [] := (zoom_bbox_frame _ _).1
  have hly : (MapS.init.zoom_bbox data.bbox).layers = [] := (zoom_bbox_frame _ _).2.1
  have hfind : findStyle (orDefaultName data.style "Spectral_r")
      (MapS.init.zoom_bbox data.bbox).styles = Option.none := by
    rw [hst]; rfl
  have hlayer := layer_raster_fresh (MapS.init.zoom_bbox data.bbox) r data.style hfind
  constructor
  · intro rcolors hcm hrc hlen
    have hbins : r.linear data.limits rcolors.length ≠ [] := by
      intro hnil
      rw [hnil] at hlen
      exact hrc (List.length_eq_zero.mp hlen.symm)
    have hadd := addColorizerStops_built cm (freshRLayer r sn) data.limits rcolors
      rasterSymbolizer (by simpa [freshRLayer] using hcm) hrc rfl
      (by simpa [freshRLayer] using hbins)
    set rl1 : RLayer := withStops (freshRLayer r sn) rasterSymbolizer
      (rampStops (r.linear data.limits rcolors.length) rcolors) with hrl1
    set mfin : MapS :=
      { MapS.init.zoom_bbox data.bbox with
        styles := [(sn, defaultRasterStyle)], layers := [.ras rl1] } with hmfin
    have hbuild : build_map cm [.raster r] tf = .ok mfin := by
      simp only [build_map, hdata, List.foldlM_cons, List.foldlM_nil, hsn ▸ hlayer]
      simp only [bind, Except.bind]
      rw [hadd]
      simp [hmfin, hrl1, hst, hly, freshRLayer, withStops, rasterSymbolizer,
        pure, Except.pure]
    refine ⟨mfin, rl1, hbuild, by simp [hmfin], ?_⟩
    refine ⟨_, rfl, ?_, ?_, ?_⟩
    · simp [hrl1, withStops, rasterSymbolizer]
    · simp [hrl1, withStops, rasterSymbolizer, rampStops, List.length_zip, hlen]
    · have hz := zip_ne_nil_of_ne_nil hbins hrc
      simp [hrl1, withStops, rasterSymbolizer, rampStops, hz]
  · intro hcm
    have hadd : addColorizerStops cm (freshRLayer r sn) data.limits =
        .ok (freshRLayer r sn) :=
      add_colorizer_stops_no_ramp cm _ _ (by simpa [freshRLayer] using hcm)
    set mfin : MapS :=
      { MapS.init.zoom_bbox data.bbox with
        styles := [(sn, defaultRasterStyle)], layers := [.ras (freshRLayer r sn)] }
      with hmfin
    have hbuild : build_map cm [.raster r] tf = .ok mfin := by
      simp only [build_map, hdata, List.foldlM_cons, List.foldlM_nil, hsn ▸ hlayer]
      simp only [bind, Except.bind]
      rw [hadd]
      simp [hmfin, hst, hly, pure, Except.pure]
    exact ⟨mfin, freshRLayer r sn, hbuild, by simp [hmfin], rfl⟩

/-- A valid tile form carrying no style, bbox or limits. -/
def emptyValidForm : TileForm := { isValid := true, cleanedData := {} }

/-- Witness for C6: the amended theorem applied to the spec-modelled
colormap, the concrete raster dataset, and the empty valid form (limits
absent): the default `Spectral_r` ramp is registered, so stops appear. -/
theorem build_map_stops_iff_ramp_witness :
    ∃ m rl, build_map specColormap [.raster specRaster] emptyValidForm = .ok m ∧
      m.layers = [.ras rl] ∧
      ∃ sym', rl.symbolizer = some sym' ∧
        sym'.colorizer.stops =
          rampStops (specRaster.linear Option.none 3) ["#9e0142", "#ffffbf", "#5e4fa2"] ∧
        sym'.colorizer.stops.length = 3 ∧ sym'.colorizer.stops ≠ [] :=
  (build_map_stops_iff_ramp specColormap specRaster emptyValidForm {} "Spectral_r"
    rfl rfl).1 ["#9e0142", "#ffffbf", "#5e4fa2"] (by decide) (by decide) (by decide)

/-- Counterexample for C6: with limits absent from the (valid) form data,
`build_map` still attaches colorizer stops to the raster layer — three of
them, over the raster's own value range — so stop attachment is not
conditional on limits having been supplied. -/
theorem build_map_attaches_stops_without_limits :
    emptyValidForm.cleanedData.limits = Option.none ∧
      (build_map specColormap [.raster specRaster] emptyValidForm).map
          (fun m => m.layers.map (fun bl =>
            match bl with
            | .ras rl => rl.symbolizer.map (fun s => s.colorizer.stops.length)
            | .vec _ => Option.none)) =
        .ok [some 3] ∧ (3 : ℕ) ≠ 0 := by
  refine ⟨rfl, ?_, by decide⟩
  rfl

/-- C8: coercion is idempotent on successfully classified inputs: when
`as_feature x` yields a Feature or FeatureCollection `y`, applying
`as_feature` to `y` returns `y` unchanged (instances are returned as-is),
so `as_feature (as_feature x) = as_feature x`. -/
theorem as_feature_idempotent (x y : PyVal) (h : as_feature x = .ok y)
    (hy : (∃ kvs, y = PyVal.feature kvs) ∨ (∃ kvs, y = PyVal.featureCollection kvs)) :
    as_feature y = .ok y ∧ as_feature y = as_feature x := by
  rcases hy with ⟨kvs, rfl⟩ | ⟨kvs, rfl⟩ <;>
    exact ⟨rfl, by rw [h]; exact rfl⟩

/-- A minimal feature-like mapping: a geometry key and a properties key. -/
def bareFeatureDict : PyVal := .dict [("geometry", .dict []), ("properties", .dict [])]

/-- The Feature built from `bareFeatureDict`. -/
def bareFeature : PyVal :=
  .feature [("type", .str "Feature"), ("id", .none),
            ("geometry", .dict []), ("properties", .dict [])]

/-- Witness for C8: coercing a feature-like mapping and re-coercing the
result returns it unchanged. -/
theorem as_feature_idempotent_witness :
    as_feature bareFeature = .ok bareFeature ∧
      as_feature bareFeature = as_feature bareFeatureDict :=
  as_feature_idempotent bareFeatureDict bareFeature rfl
    (Or.inl ⟨_, rfl⟩)

/-- An elementwise-successful `mapM` with `coerceFeatureElem` returns a
list of the same length whose i-th element comes from the i-th input. -/
theorem mapM_coerce_ok (S : List PyVal)
    (h : ∀ x ∈ S, ∃ f, coerceFeatureElem x = .ok f) :
    ∃ fs, S.mapM coerceFeatureElem = .ok fs ∧ fs.length = S.length ∧
      ∀ i (hi : i < S.length) (hf : i < fs.length),
        coerceFeatureElem (S.get ⟨i, hi⟩) = .ok (fs.get ⟨i, hf⟩) := by
  induction S with
  | nil =>
    refine ⟨[], rfl, rfl, ?_⟩
    intro i hi
    cases hi
  | cons x rest ih =>
    obtain ⟨f, hf⟩ := h x (List.mem_cons_self x rest)
    obtain ⟨fs, hfs, hlen, hidx⟩ := ih (fun z hz => h z (List.mem_cons_of_mem x hz))
    refine ⟨f :: fs, ?_, by simp [hlen], ?_⟩
    · rw [List.mapM_cons, hf, hfs]
      rfl
    · intro i hi hfi
      cases i with
      | zero => simpa using hf
      | succ n => exact hidx n (by simpa using hi) (by simpa using hfi)

/-- On a feature-like plain mapping, `as_feature` computes exactly
`Feature(**data)`, the same construction used per element inside
`FeatureCollection.__init__`. -/
theorem as_feature_featurelike_dict (kvs : List (String × PyVal))
    (hfl : is_featurelike (.dict kvs) = true) :
    as_feature (.dict kvs) = coerceFeatureElem (.dict kvs) := by
  simp [as_feature, hfl, coerceFeatureElem, splatKwargs]

/-- C3: a sequence `S` of raw (non-Feature) feature-like mappings, handed
to the `FeatureCollection` constructor directly or classified by
`as_feature`, yields a collection whose `features` list has length
`len(S)` and whose i-th element is the Feature obtained by individually
coercing `S[i]` — every element, not only the first. -/
theorem fc_from_sequence_elementwise (S : List PyVal)
    (h : ∀ x ∈ S, ∃ kvs, x = PyVal.dict kvs ∧ is_featurelike (PyVal.dict kvs) = true ∧
      ∃ f, featureInitE kvs = .ok f) :
    ∃ fs, as_feature (.list S) = .ok (.featureCollection
        [("type", .str "FeatureCollection"), ("features", .list fs)]) ∧
      fcInitE [("features", .list S)] = .ok
        [("type", .str "FeatureCollection"), ("features", .list fs)] ∧
      fs.length = S.length ∧
      ∀ i (hi : i < S.length) (hf : i < fs.length),
        as_feature (S.get ⟨i, hi⟩) = .ok (fs.get ⟨i, hf⟩) := by
  have hcoerce : ∀ x ∈ S, ∃ f, coerceFeatureElem x = .ok f := by
    intro x hx
    obtain ⟨kvs, rfl, hfl, f, hf⟩ := h x hx
    exact ⟨.feature f, by
      simp [coerceFeatureElem, splatKwargs, hf, bind, Except.bind,
        Functor.map, Except.map, pure, Except.pure]⟩
  obtain ⟨fs, hfs, hlen, hidx⟩ := mapM_coerce_ok S hcoerce
  have hnostr : ∀ k : String,
      (S.any (fun x => match x with | .str s => s = k | _ => false)) = false := by
    intro k
    rw [List.any_eq_false]
    intro x hx
    obtain ⟨kvs, rfl, -, -⟩ := h x hx
    simp
  have hgeo : is_featurelike (.list S) = false := by
    simp [is_featurelike, pyContains, hnostr "geometry", hnostr "properties"]
  have hfeat : has_features (.list S) = false := by
    simp [has_features, pyContains, hnostr "features"]
  have hfc : fcInitE [("features", .list S)] = .ok
      [("type", .str "FeatureCollection"), ("features", .list fs)] := by
    cases S with
    | nil =>
      have : fs = [] := by
        have : (pure [] : Except PyErr (List PyVal)) = .ok fs := by
          simpa using hfs
        simpa [pure, Except.pure] using this.symm
      subst this
      rfl
    | cons x rest =>
      obtain ⟨kvs, hx, -, -⟩ := h x (List.mem_cons_self x rest)
      subst hx
      have hloop : List.mapM.loop coerceFeatureElem (PyVal.dict kvs :: rest) [] =
          Except.ok fs := hfs
      simp [fcInitE, getKw, lookupKV, pyTruthy, pyIndexZero, pyIter, hloop,
        isFeatureInst, dictUpdate, bind, Except.bind, pure, Except.pure]
  refine ⟨fs, ?_, hfc, hlen, ?_⟩
  · simp [as_feature, hgeo, hfeat, isSequenceABC, hfc, bind, Except.bind,
      pure, Except.pure]
  · intro i hi hf
    obtain ⟨kvs, hx, hfl, -⟩ := h (S.get ⟨i, hi⟩) (S.get_mem _ _)
    rw [hx, as_feature_featurelike_dict kvs hfl, ← hx]
    exact hidx i hi hf

/-- Witness for C3: a two-element sequence of feature-like mappings
coerces to a collection of exactly two elementwise-coerced Features. -/
theorem fc_from_sequence_elementwise_witness :
    ∃ fs, as_feature (.list [bareFeatureDict, bareFeatureDict]) = .ok (.featureCollection
        [("type", .str "FeatureCollection"), ("features", .list fs)]) ∧
      fcInitE [("features", .list [bareFeatureDict, bareFeatureDict])] = .ok
        [("type", .str "FeatureCollection"), ("features", .list fs)] ∧
      fs.length = [bareFeatureDict, bareFeatureDict].length ∧
      ∀ i (hi : i < [bareFeatureDict, bareFeatureDict].length) (hf : i < fs.length),
        as_feature ([bareFeatureDict, bareFeatureDict].get ⟨i, hi⟩) = .ok (fs.get ⟨i, hf⟩) :=
  fc_from_sequence_elementwise [bareFeatureDict, bareFeatureDict] (by
    intro x hx
    have hx' : x = bareFeatureDict := by
      rcases List.mem_cons.mp hx with h | h
      · exact h
      · simpa using h
    refine ⟨[("geometry", .dict []), ("properties", .dict [])], by rw [hx']; rfl, rfl, ?_⟩
    exact ⟨[("type", .str "Feature"), ("id", .none),
            ("geometry", .dict []), ("properties", .dict [])], rfl⟩)

/-- Counterexample for C2: `as_feature([1])` raises: the list is
classified as a sequence, `FeatureCollection(features=[1])` reaches
`Feature(**1)`, and the keyword splat of a non-mapping raises `TypeError`
(the construction step is outside the caught membership tests). -/
theorem as_feature_raises_on_int_element :
    as_feature (.list [.int 1]) = .error .typeError := rfl

/-- Kwargs without the `crs`/`iterable` keys, whose values the `Feature`
constructor would feed to `NamedCRS`/`dict.update` (where a malformed
value raises). -/
def plainKeysOnly (kvs : List (String × PyVal)) : Bool :=
  kvs.all (fun kv => kv.1 != "crs" && kv.1 != "iterable")

/-- An element that `Feature(**elem)` accepts without raising: a mapping
with plain keys. -/
def tameElem : PyVal → Bool
  | .dict kvs => plainKeysOnly kvs
  | .feature kvs => plainKeysOnly kvs
  | .featureCollection kvs => plainKeysOnly kvs
  | _ => false

/-- A `features` value the `FeatureCollection` constructor digests without
raising: falsy, or a list that is headed by a Feature instance or made of
tame elements. -/
def tameFeaturesVal : PyVal → Bool
  | .list [] => true
  | .list (x :: rest) => isFeatureInst x || (x :: rest).all tameElem
  | v => !pyTruthy v

/-- Inputs on which `as_feature` provably returns: instances,
unclassifiable scalars, empty strings, sequences of tame elements, and
mappings whose classified construction only meets tame values. -/
def tameInput : PyVal → Bool
  | .feature _ => true
  | .featureCollection _ => true
  | .none => true
  | .bool _ => true
  | .int _ => true
  | .str s => s.data.isEmpty
  | .list xs => xs.all tameElem
  | .dict kvs =>
    if is_featurelike (.dict kvs) then plainKeysOnly kvs
    else if has_features (.dict kvs) then
      plainKeysOnly kvs && tameFeaturesVal (getKw "features" kvs)
    else true

/-- A key not carried by any pair is not found. -/
theorem lookupKV_none_of_forall (k : String) (kvs : List (String × PyVal))
    (h : ∀ p ∈ kvs, p.1 ≠ k) : lookupKV k kvs = Option.none := by
  induction kvs with
  | nil => rfl
  | cons p rest ih =>
    simp only [lookupKV]
    rw [if_neg (h p (List.mem_cons_self p rest))]
    exact ih (fun q hq => h q (List.mem_cons_of_mem p hq))

/-- Plain-keyed kwargs bind neither `crs` nor `iterable`. -/
theorem plainKeysOnly_lookups (kvs : List (String × PyVal))
    (h : plainKeysOnly kvs = true) :
    lookupKV "crs" kvs = Option.none ∧ lookupKV "iterable" kvs = Option.none := by
  have h' : ∀ p ∈ kvs, p.1 ≠ "crs" ∧ p.1 ≠ "iterable" := by
    intro p hp
    have hpp := List.all_eq_true.mp h p hp
    simpa using hpp
  exact ⟨lookupKV_none_of_forall _ _ (fun p hp => (h' p hp).1),
    lookupKV_none_of_forall _ _ (fun p hp => (h' p hp).2)⟩

/-- Whether a fallible computation succeeded. -/
def exceptOk {α : Type} : Except PyErr α → Bool
  | .ok _ => true
  | .error _ => false

/-- A computation that tests as succeeded has an `ok` value. -/
theorem exists_ok_of_exceptOk {α : Type} {e : Except PyErr α}
    (h : exceptOk e = true) : ∃ a, e = .ok a := by
  cases e with
  | ok a => exact ⟨a, rfl⟩
  | error err => simp [exceptOk] at h

/-- `Feature(**kvs)` succeeds on plain-keyed kwargs: no `crs` value is fed
to `NamedCRS` and the `update` runs on the empty default. -/
theorem featureInitE_ok_of_plain (kvs : List (String × PyVal))
    (h : plainKeysOnly kvs = true) : ∃ f, featureInitE kvs = .ok f := by
  obtain ⟨hcrs, hiter⟩ := plainKeysOnly_lookups kvs h
  apply exists_ok_of_exceptOk
  simp [exceptOk, featureInitE, getKw, hcrs, hiter, pyTruthy, dictUpdate,
    bind, Except.bind, pure, Except.pure]

/-- `Feature(**elem)` succeeds on tame elements. -/
theorem coerceFeatureElem_ok_of_tame (x : PyVal) (h : tameElem x = true) :
    ∃ f, coerceFeatureElem x = .ok f := by
  cases x <;> simp [tameElem] at h <;>
  · obtain ⟨f, hf⟩ := featureInitE_ok_of_plain _ h
    exact ⟨.feature f, by
      simp [coerceFeatureElem, splatKwargs, hf, bind, Except.bind,
        Functor.map, Except.map, pure, Except.pure]⟩

/-- Tame elements make a tame `features` list. -/
theorem tameFeaturesVal_of_all_tame (xs : List PyVal)
    (h : xs.all tameElem = true) : tameFeaturesVal (.list xs) = true := by
  cases xs with
  | nil => rfl
  | cons x rest => simp [tameFeaturesVal, h]

/-- `FeatureCollection(**kvs)` succeeds on plain-keyed kwargs with a tame
`features` value. -/
theorem fcInitE_ok_of_tame (kvs : List (String × PyVal))
    (hplain : plainKeysOnly kvs = true)
    (hfeat : tameFeaturesVal (getKw "features" kvs) = true) :
    ∃ f, fcInitE kvs = .ok f := by
  obtain ⟨hcrs, hiter⟩ := plainKeysOnly_lookups kvs hplain
  have hvdef : ∀ v, getKw "features" kvs = v →
      (lookupKV "features" kvs).getD PyVal.none = v := fun v hv => hv
  cases hv : getKw "features" kvs with
  | list xs =>
    rw [hv] at hfeat
    cases xs with
    | nil =>
      apply exists_ok_of_exceptOk
      simp [exceptOk, fcInitE, getKw, hcrs, hvdef _ hv, hiter, pyTruthy, dictUpdate,
        bind, Except.bind, pure, Except.pure]
    | cons x rest =>
      by_cases hfi : isFeatureInst x = true
      · apply exists_ok_of_exceptOk
        simp [exceptOk, fcInitE, getKw, hcrs, hvdef _ hv, hiter, pyTruthy,
          pyIndexZero, hfi, dictUpdate, bind, Except.bind, pure, Except.pure]
      · have hall : (x :: rest).all tameElem = true := by
          simpa [tameFeaturesVal, hfi] using hfeat
        obtain ⟨fs, hfs, -, -⟩ := mapM_coerce_ok (x :: rest)
          (fun z hz => coerceFeatureElem_ok_of_tame z (List.all_eq_true.mp hall z hz))
        have hloop : List.mapM.loop coerceFeatureElem (x :: rest) [] =
            Except.ok fs := hfs
        apply exists_ok_of_exceptOk
        simp [exceptOk, fcInitE, getKw, hcrs, hvdef _ hv, hiter, pyTruthy,
          pyIndexZero, pyIter, hfi, hloop, dictUpdate, bind, Except.bind, pure,
          Except.pure]
  | _ =>
    rw [hv] at hfeat
    apply exists_ok_of_exceptOk
    solve
    | simp [exceptOk, fcInitE, getKw, hcrs, hvdef _ hv, hiter, pyTruthy,
        dictUpdate, bind, Except.bind, pure, Except.pure]
    | (simp [tameFeaturesVal, pyTruthy] at hfeat
       simp [exceptOk, fcInitE, getKw, hcrs, hvdef _ hv, hiter, hfeat, pyTruthy,
         dictUpdate, bind, Except.bind, pure, Except.pure])

/-- C2 (amended): the classification tests themselves never raise, and
`as_feature` returns without raising — yielding a Feature, a
FeatureCollection, or the input unchanged — for every tame input:
instances, unclassifiable scalars and mappings, empty strings, sequences
of mappings with plain keys, and classified mappings whose construction
meets only mappings and plain `crs`/`iterable`-free keys. (It is not
raising-free for every input: construction raises on classified data whose
coerced elements are not mappings, see the counterexample.) -/
theorem as_feature_total_on_tame (x : PyVal) (h : tameInput x = true) :
    ∃ y, as_feature x = .ok y ∧
      ((∃ kvs, y = PyVal.feature kvs) ∨ (∃ kvs, y = PyVal.featureCollection kvs) ∨
        y = x) := by
  cases x with
  | feature kvs => exact ⟨_, rfl, Or.inr (Or.inr rfl)⟩
  | featureCollection kvs => exact ⟨_, rfl, Or.inr (Or.inr rfl)⟩
  | none => exact ⟨_, rfl, Or.inr (Or.inr rfl)⟩
  | bool b => exact ⟨_, rfl, Or.inr (Or.inr rfl)⟩
  | int n => exact ⟨_, rfl, Or.inr (Or.inr rfl)⟩
  | str s =>
    have hd : s.data = [] := by simpa [tameInput] using h
    have hfl : is_featurelike (.str s) = false := by
      simp only [is_featurelike, pyContains, hd]
      decide
    have hhf : has_features (.str s) = false := by
      simp only [has_features, pyContains, hd]
      decide
    obtain ⟨f, hf⟩ := fcInitE_ok_of_tame [("features", .str s)] rfl
      (by simp [getKw, lookupKV, tameFeaturesVal, pyTruthy, hd])
    refine ⟨.featureCollection f, ?_, Or.inr (Or.inl ⟨f, rfl⟩)⟩
    simp [as_feature, hfl, hhf, isSequenceABC, hf, bind, Except.bind,
      Functor.map, Except.map, pure, Except.pure]
  | list xs =>
    have hall : xs.all tameElem = true := by simpa [tameInput] using h
    have hnostr : ∀ k : String,
        (xs.any fun z => match z with | .str s' => s' = k | _ => false) = false := by
      intro k
      rw [List.any_eq_false]
      intro z hz
      have hz' := List.all_eq_true.mp hall z hz
      cases z <;> simp [tameElem] at hz' ⊢
    have hfl : is_featurelike (.list xs) = false := by
      simp [is_featurelike, pyContains, hnostr "geometry", hnostr "properties"]
    have hhf : has_features (.list xs) = false := by
      simp [has_features, pyContains, hnostr "features"]
    obtain ⟨f, hf⟩ := fcInitE_ok_of_tame [("features", .list xs)] rfl
      (by simpa [getKw, lookupKV] using tameFeaturesVal_of_all_tame xs hall)
    refine ⟨.featureCollection f, ?_, Or.inr (Or.inl ⟨f, rfl⟩)⟩
    simp [as_feature, hfl, hhf, isSequenceABC, hf, bind, Except.bind,
      Functor.map, Except.map, pure, Except.pure]
  | dict kvs =>
    by_cases hfl : is_featurelike (.dict kvs) = true
    · have hplain : plainKeysOnly kvs = true := by
        have h2 := h
        rw [tameInput, if_pos hfl] at h2
        exact h2
      obtain ⟨f, hf⟩ := featureInitE_ok_of_plain kvs hplain
      refine ⟨.feature f, ?_, Or.inl ⟨f, rfl⟩⟩
      simp [as_feature, hfl, splatKwargs, hf, bind, Except.bind,
        Functor.map, Except.map, pure, Except.pure]
    · by_cases hhf : has_features (.dict kvs) = true
      · have h2 : plainKeysOnly kvs = true ∧
            tameFeaturesVal (getKw "features" kvs) = true := by
          have h3 := h
          rw [tameInput, if_neg hfl, if_pos hhf] at h3
          exact Bool.and_eq_true_iff.mp h3
        obtain ⟨f, hf⟩ := fcInitE_ok_of_tame kvs h2.1 h2.2
        refine ⟨.featureCollection f, ?_, Or.inr (Or.inl ⟨f, rfl⟩)⟩
        simp [as_feature, hfl, hhf, splatKwargs, hf, bind, Except.bind,
          Functor.map, Except.map, pure, Except.pure]
      · cases kvs with
        | nil =>
          exact ⟨.feature [("type", .str "Feature"), ("id", .none),
            ("geometry", .dict []), ("properties", .dict [])], rfl, Or.inl ⟨_, rfl⟩⟩
        | cons p rest =>
          refine ⟨.dict (p :: rest), ?_, Or.inr (Or.inr rfl)⟩
          simp [as_feature, hfl, hhf, isSequenceABC]

/-- Witness for C2's amended theorem: a feature-like mapping is tame and
classifies without raising. -/
theorem as_feature_total_on_tame_witness :
    ∃ y, as_feature bareFeatureDict = .ok y ∧
      ((∃ kvs, y = PyVal.feature kvs) ∨ (∃ kvs, y = PyVal.featureCollection kvs) ∨
        y = bareFeatureDict) :=
  as_feature_total_on_tame bareFeatureDict (by decide)

/-- Lookup finds the middle entry when no earlier key matches. -/
theorem lookupKV_middle (k : String) (v : PyVal) (pre post : List (String × PyVal))
    (h : ∀ p ∈ pre, p.1 ≠ k) :
    lookupKV k (pre ++ (k, v) :: post) = some v := by
  induction pre with
  | nil => simp [lookupKV]
  | cons p rest ih =>
    simp only [List.cons_append, lookupKV]
    rw [if_neg (h p (List.mem_cons_self p rest))]
    exact ih (fun q hq => h q (List.mem_cons_of_mem p hq))

/-- Filtering out a key that occurs only in the middle drops exactly that
entry. -/
theorem filter_ne_middle (k : String) (v : PyVal) (pre post : List (String × PyVal))
    (hpre : ∀ p ∈ pre, p.1 ≠ k) (hpost : ∀ p ∈ post, p.1 ≠ k) :
    (pre ++ (k, v) :: post).filter (fun kv => kv.1 != k) = pre ++ post := by
  rw [List.filter_append, List.filter_cons]
  have hk : (((k, v) : String × PyVal).1 != k) = false := by simp
  rw [hk]
  simp only [Bool.false_eq_true, if_neg (by simp : ¬False)]
  rw [List.filter_eq_self.mpr (fun p hp => by simpa using hpre p hp),
    List.filter_eq_self.mpr (fun p hp => by simpa using hpost p hp)]

/-- The object encoder emits `", "` between a first entry and a nonempty
rest. -/
theorem dumpsEntries_cons_ne_nil (k : String) (v : PyVal)
    (rest : List (String × PyVal)) (h : rest ≠ []) :
    dumpsEntries ((k, v) :: rest) =
      ('"' :: escChars k.data ++ '"' :: ':' :: ' ' :: dumps v) ++
        ',' :: ' ' :: dumpsEntries rest := by
  cases rest with
  | nil => exact absurd rfl h
  | cons e rest' => rfl

/-- Stripping the first and last character of an encoded object leaves its
comma-separated entries (`json.dumps(...)[1:-1]`). -/
theorem stripEnds_dumpObj (kvs : List (String × PyVal)) :
    stripEnds (dumpObj kvs) = dumpsEntries kvs := by
  show (('{' :: (dumpsEntries kvs ++ ['}'])).drop 1).dropLast = dumpsEntries kvs
  rw [List.drop_one, List.tail_cons, List.dropLast_concat]

/-- `dumps` of any dict-class value is the object encoding of its
entries. -/
theorem dumps_dict_eq_dumpObj (kvs : List (String × PyVal)) :
    dumps (.dict kvs) = dumpObj kvs := by
  simp [dumps, dumpObj]

/-- `dumps` of a `Feature` instance is the object encoding of its
entries. -/
theorem dumps_feature_eq_dumpObj (kvs : List (String × PyVal)) :
    dumps (.feature kvs) = dumpObj kvs := by
  simp [dumps, dumpObj]

/-- Two serialized texts that parse to the same JSON object: each is the
encoding of an entry list, and the entry lists agree up to permutation
(hence as key-value maps, the objects a JSON parser would return). -/
def ParseEquivObj (s1 s2 : List Char) : Prop :=
  ∃ a b : List (String × PyVal), s1 = dumpObj a ∧ s2 = dumpObj b ∧ a.Perm b

/-- C4: serializing a Feature whose geometry is a pre-serialized JSON
string yields a text that parses to the same JSON object as serializing
the same Feature with the geometry supplied structured: the spliced output
is the encoding of the same entries with geometry moved to the front, a
permutation of the structured encoding's entries. The feature is any dict
contents with one `geometry` entry and at least one other entry (as the
constructor guarantees). -/
theorem featureStr_geometry_string_equiv (g pre post : List (String × PyVal))
    (hpre : ∀ p ∈ pre, p.1 ≠ "geometry") (hpost : ∀ p ∈ post, p.1 ≠ "geometry")
    (hne : pre ++ post ≠ []) :
    ∃ s1 s2,
      featureStr (pre ++ ("geometry", .str (String.mk (dumps (.dict g)))) :: post) =
        some s1 ∧
      featureStr (pre ++ ("geometry", .dict g) :: post) = some s2 ∧
      ParseEquivObj s1 s2 := by
  have hgd : dumps (.dict g) = '{' :: dumpsEntries g ++ ['}'] := dumps_dict_eq_dumpObj g
  have hdata : (String.mk (dumps (.dict g))).data = dumps (.dict g) := rfl
  have htr : pyTruthy (.str (String.mk (dumps (.dict g)))) = true := by
    simp [pyTruthy, hdata, hgd]
  have hfil1 := filter_ne_middle "geometry"
    (.str (String.mk (dumps (.dict g)))) pre post hpre hpost
  have hfil2 := filter_ne_middle "geometry" (.dict g) pre post hpre hpost
  have hlook1 := lookupKV_middle "geometry"
    (.str (String.mk (dumps (.dict g)))) pre post hpre
  have hlook2 := lookupKV_middle "geometry" (.dict g) pre post hpre
  have hsplice : '{' :: toL "\"geometry\": " ++ dumps (.dict g) ++ ',' :: ' ' ::
      stripEnds (dumps (.dict (pre ++ post))) ++ ['}'] =
      dumpObj (("geometry", PyVal.dict g) :: (pre ++ post)) := by
    rw [dumps_dict_eq_dumpObj (pre ++ post), stripEnds_dumpObj, dumpObj,
      dumpsEntries_cons_ne_nil _ _ _ hne]
    have hgeoKey : escChars "geometry".data = "geometry".data := rfl
    rw [hgeoKey]
    simp [toL]
  have hs1 : featureStr (pre ++ ("geometry",
      .str (String.mk (dumps (.dict g)))) :: post) =
      some (dumpObj (("geometry", PyVal.dict g) :: (pre ++ post))) := by
    simp only [featureStr, hlook1, htr, if_pos, hfil1]
    rw [← hsplice]
    simp [pyFormat, hdata]
  cases g with
  | nil =>
    have hs2 : featureStr (pre ++ ("geometry", PyVal.dict []) :: post) =
        some (dumpObj (("geometry", PyVal.dict []) :: (pre ++ post))) := by
      simp only [featureStr, hlook2, pyTruthy, hfil2]
      rw [← hsplice]
      simp [pyFormat]
      rfl
    exact ⟨_, _, hs1, hs2, ⟨_, _, rfl, rfl, List.Perm.refl _⟩⟩
  | cons e g' =>
    have hs2 : featureStr (pre ++ ("geometry", PyVal.dict (e :: g')) :: post) =
        some (dumpObj (pre ++ ("geometry", PyVal.dict (e :: g')) :: post)) := by
      simp only [featureStr, hlook2, pyTruthy, List.isEmpty_cons, Bool.not_false,
        if_pos]
      rw [dumps_feature_eq_dumpObj]
    exact ⟨_, _, hs1, hs2, ⟨_, _, rfl, rfl, List.perm_middle.symm⟩⟩

/-- Witness for C4: a concrete feature with a point geometry, serialized
once with the geometry pre-serialized and once structured. -/
theorem featureStr_geometry_string_equiv_witness :
    ∃ s1 s2,
      featureStr ([("type", PyVal.str "Feature"), ("id", PyVal.none)] ++
        ("geometry", .str (String.mk (dumps (.dict [("type", PyVal.str "Point")])))) ::
          [("properties", PyVal.dict [])]) = some s1 ∧
      featureStr ([("type", PyVal.str "Feature"), ("id", PyVal.none)] ++
        ("geometry", .dict [("type", PyVal.str "Point")]) ::
          [("properties", PyVal.dict [])]) = some s2 ∧
      ParseEquivObj s1 s2 :=
  featureStr_geometry_string_equiv [("type", .str "Point")]
    [("type", .str "Feature"), ("id", .none)] [("properties", .dict [])]
    (by decide) (by decide) (by simp)

end Spillway
